import Mathlib

set_option maxRecDepth 8000

/-!
Shallow embedding of the document-ingestion / block-content pipeline of the
bridge-to-lovable repository, together with theorems checking the
natural-language specification against it.

Embedded source files:
* `src/utils/documentParser.ts` — block model, plain-text parsing path,
  excerpt generation, block-to-markup rendering, error wrapping.
* `src/hooks/useContentSections.ts` — content-section resolver (query
  semantics and fetch-error state transition).
* `src/components/ui/advanced-rich-text-editor.tsx` — visual editor list
  operations (`handleDragEnd` reorder, `deleteBlock`).

JavaScript strings are modelled by Lean `String` (code points stand in for
UTF-16 units; every concrete input used below is ASCII or BMP, where the two
coincide).  Thrown exceptions are modelled by `Except String`.
-/

/-- `DocumentBlock.type` in documentParser.ts line 11:
`'heading' | 'paragraph' | 'list' | 'image' | 'table'`. -/
inductive BlockType where
  | heading
  | paragraph
  | list
  | image
  | table
  deriving Repr, DecidableEq

/-- `DocumentBlock` interface, documentParser.ts lines 10–15.
`level?: number` and `items?: string[]` are optional fields. -/
structure DocumentBlock where
  type : BlockType
  level : Option Nat
  content : String
  items : Option (List String)
  deriving Repr, DecidableEq

/-- `ParsedDocument` interface, documentParser.ts lines 3–8. -/
structure ParsedDocument where
  title : String
  content : String
  excerpt : String
  images : List String
  deriving Repr, DecidableEq

/-- JavaScript `text.split('\n')` over the string's character list: every
occurrence of the separator splits, empty pieces are kept. -/
def splitLinesAux : List Char → List Char → List String
  | [], acc => [String.mk acc.reverse]
  | c :: cs, acc =>
      if c = '\n' then String.mk acc.reverse :: splitLinesAux cs []
      else splitLinesAux cs (c :: acc)

/-- JavaScript `text.split('\n')`. -/
def splitLines (s : String) : List String :=
  splitLinesAux s.data []

/-- JavaScript `String.prototype.trim`: strip leading and trailing
whitespace. -/
def jsTrim (s : String) : String :=
  String.mk (((s.data.dropWhile Char.isWhitespace).reverse.dropWhile
    Char.isWhitespace).reverse)

/-- JavaScript `s.startsWith(marker)`. -/
def jsStartsWith (s marker : String) : Bool :=
  marker.data.isPrefixOf s.data

/-- JavaScript `s.endsWith(marker)`. -/
def jsEndsWith (s marker : String) : Bool :=
  marker.data.reverse.isPrefixOf s.data.reverse

/-- The test `trimmedLine.match(/^\d+\./)` being truthy (documentParser.ts
line 156): one or more leading digits followed by a dot. -/
def startsNumDot (s : String) : Bool :=
  let ds := s.toList.takeWhile Char.isDigit
  decide (ds ≠ []) && ((s.toList.drop ds.length).head? == some '.')

/-- The list-item test of documentParser.ts line 156:
`trimmedLine.startsWith('•') || trimmedLine.startsWith('-') ||
trimmedLine.match(/^\d+\./)`. -/
def isBulletLine (s : String) : Bool :=
  jsStartsWith s ("•") || jsStartsWith s ("-") || startsNumDot s

/-- `trimmedLine.replace(/^[•\-\d+\.]\s*/, '')` (documentParser.ts line 158).
The regex consumes ONE character of the class `[•\-\d+\.]` (a bullet, hyphen,
digit, plus, or dot) and then any run of whitespace; only the first match is
replaced, and a non-matching string is returned unchanged. -/
def stripListMarker (s : String) : String :=
  match s.toList with
  | [] => s
  | c :: rest =>
      if c = '•' || c = '-' || c.isDigit || c = '+' || c = '.' then
        String.mk (rest.dropWhile Char.isWhitespace)
      else s

/-- Classification of one non-title line of the plain-text path,
documentParser.ts lines 153–162.  The heading test (`length < 100` and no
trailing period) is tried FIRST; the bullet test only fires on lines the
heading test rejects. -/
def classifyLine (l : String) : DocumentBlock :=
  if decide (l.length < 100) && !(jsEndsWith l (".")) then
    ⟨BlockType.heading, some 2, l, none⟩
  else if isBulletLine l then
    ⟨BlockType.list, none, "ul", some [stripListMarker l]⟩
  else
    ⟨BlockType.paragraph, none, l, none⟩

/-- `text.split('\n').filter(line => line.trim().length > 0)`
(documentParser.ts line 137). -/
def nonBlankLines (text : String) : List String :=
  (splitLines text).filter (fun l => decide (0 < (jsTrim l).length))

/-- The `blocks` array built by the loop of documentParser.ts lines 143–163:
the first non-blank line becomes a level-1 heading (and the title), every
later line is classified by `classifyLine` on its trimmed text. -/
def parseTextBlocks (text : String) : List DocumentBlock :=
  match nonBlankLines text with
  | [] => []
  | first :: rest =>
      ⟨BlockType.heading, some 1, jsTrim first, none⟩ ::
        rest.map (fun l => classifyLine (jsTrim l))

/-- `generateExcerpt` (documentParser.ts lines 214–222): the first paragraph
block's text, `substring(0, 157) + '...'` when its length exceeds 160,
verbatim otherwise; `''` when there is no paragraph block.
`String.mk (….data.take 157)` is `substring(0, 157)`. -/
def generateExcerpt (blocks : List DocumentBlock) : String :=
  match blocks.filter (fun b => b.type == BlockType.paragraph) with
  | [] => ""
  | p :: _ =>
      if decide (160 < p.content.length) then
        String.mk (p.content.data.take 157) ++ "..."
      else p.content

/-- `imageAlign = imageAlign === 'left' ? 'right' : 'left'`
(documentParser.ts line 203). -/
def toggleAlign (a : String) : String :=
  if a == "left" then "right" else "left"

/-- The markup emitted for one image block, documentParser.ts lines 200–202. -/
def imageHtml (align src : String) : String :=
  "<div class=\"image-container\" style=\"text-align: " ++ align ++ ";\">" ++
    "<img src=\"" ++ src ++ "\" alt=\"Document image\" style=\"max-width: 100%; height: auto;\" />" ++
    "</div>"

/-- The markup emitted for one list block, documentParser.ts lines 189–198:
nothing unless `items` is present and non-empty; tag `ol` when `content` is
`'ol'`, else `ul`; one `li` per item. -/
def listHtml (b : DocumentBlock) : String :=
  match b.items with
  | none => ""
  | some its =>
      if decide (0 < its.length) then
        let listType := if b.content == "ol" then "ol" else "ul"
        "<" ++ listType ++ ">" ++
          String.join (its.map (fun it => "<li>" ++ it ++ "</li>")) ++
          "</" ++ listType ++ ">"
      else ""

/-- The markup emitted for one non-image block, documentParser.ts lines
182–187 and 189–198 and 205–206.  `block.level || 2` treats both a missing
level and a zero level as 2 (JavaScript falsy coalescing).  The `image` arm
is never taken: image blocks are rendered by the caller. -/
def renderNonImage (b : DocumentBlock) : String :=
  match b.type with
  | BlockType.heading =>
      let lvl : Nat := match b.level with
        | some l => if l == 0 then 2 else l
        | none => 2
      "<h" ++ toString lvl ++ ">" ++ b.content ++ "</h" ++ toString lvl ++ ">"
  | BlockType.paragraph => "<p>" ++ b.content ++ "</p>"
  | BlockType.list => listHtml b
  | BlockType.image => ""
  | BlockType.table => b.content

/-- The loop of `convertBlocksToRichText` (documentParser.ts lines 180–209)
with the running `imageAlign` state made explicit: each image block is
rendered with the current alignment, which is then toggled; other blocks do
not touch it. -/
def renderBlocks : List DocumentBlock → String → String
  | [], _ => ""
  | b :: bs, align =>
      match b.type with
      | BlockType.image => imageHtml align b.content ++ renderBlocks bs (toggleAlign align)
      | _ => renderNonImage b ++ renderBlocks bs align

/-- `convertBlocksToRichText` (documentParser.ts lines 176–212): the
alignment state starts at `'left'`. -/
def convertBlocksToRichText (blocks : List DocumentBlock) : String :=
  renderBlocks blocks ("left")

/-- `parseTextContent` (documentParser.ts lines 136–174): blocks from
`parseTextBlocks`; the title is the first non-blank line's trimmed text,
defaulting to `'Untitled Document'`; `images` is always `[]` on this path. -/
def parseTextContent (text : String) : ParsedDocument :=
  { title := match nonBlankLines text with
      | [] => "Untitled Document"
      | first :: _ => jsTrim first
    content := convertBlocksToRichText (parseTextBlocks text)
    excerpt := generateExcerpt (parseTextBlocks text)
    images := [] }

/-- `parseWordDocument` (documentParser.ts lines 18–28).  The argument models
the fallible body of the `try` block — `mammoth.convertToHtml` followed by
the DOM walk `parseHtmlContent` — as an `Except` value (a thrown exception is
`.error`); the `catch` replaces any error by the single message naming the
Word kind. -/
def parseWordDocument (converted : Except String ParsedDocument) : Except String ParsedDocument :=
  match converted with
  | Except.ok doc => Except.ok doc
  | Except.error _ => Except.error ("Failed to parse Word document")

/-- `parsePdfDocument` (documentParser.ts lines 30–45).  The argument models
the fallible decode `file.arrayBuffer()` + `extractTextFromPdf` as an
`Except` value; on success the decoded text goes through `parseTextContent`,
and the `catch` replaces any error by the single message naming the PDF
kind. -/
def parsePdfDocument (extracted : Except String String) : Except String ParsedDocument :=
  match extracted with
  | Except.ok text => Except.ok (parseTextContent text)
  | Except.error _ => Except.error ("Failed to parse PDF document")

/-- `ContentSection` interface, useContentSections.ts lines 4–15.  The
untyped `data: any` JSON bag is carried as an opaque string. -/
structure ContentSection where
  id : String
  section_key : String
  title : String
  content : String
  image_url : String
  data : String
  section_type : String
  page_path : String
  display_order : Int
  visible : Bool
  deriving Repr, DecidableEq

/-- The query built by `fetchSections` (useContentSections.ts lines 44–54)
against a table state `rows`: the builder accumulates `eq('visible', true)`,
`order('display_order', { ascending: true })` and — when `pagePath` is
non-empty — `eq('page_path', pagePath)`; its SQL semantics is the
conjunction of the WHERE clauses followed by the ORDER BY, modelled here by
two filters and a stable sort. -/
def fetchSections (rows : List ContentSection) (pagePath : String) : List ContentSection :=
  let visibleRows := rows.filter (fun s => s.visible)
  let matching :=
    if pagePath ≠ "" then visibleRows.filter (fun s => s.page_path == pagePath)
    else visibleRows
  List.insertionSort (fun a b => a.display_order ≤ b.display_order) matching

/-- The resolver state held by `useContentSections` (lines 18–20):
`sections`, `loading`, `error`. -/
structure SectionsState where
  sections : List ContentSection
  loading : Bool
  error : Option String
  deriving Repr, DecidableEq

/-- The state transition performed by one run of `fetchSections`
(useContentSections.ts lines 41–63) once the awaited query settles:
on success `setSections(data || [])`; on failure `setError(err.message)`
and the sections are not touched; `finally` clears `loading` either way. -/
def fetchSectionsUpdate (st : SectionsState) (result : Except String (List ContentSection)) :
    SectionsState :=
  match result with
  | Except.ok rows => { st with sections := rows, loading := false }
  | Except.error msg => { st with error := some msg, loading := false }

/-- `tableData` payload of the editor's `ContentBlock.content`
(advanced-rich-text-editor.tsx lines 855–858). -/
structure TableData where
  headers : List String
  rows : List (List String)
  deriving Repr, DecidableEq

/-- `chartData` payload of the editor's `ContentBlock.content`
(advanced-rich-text-editor.tsx lines 859–864); the sample `data` values are
integers. -/
structure ChartData where
  type : String
  labels : List String
  data : List Int
  title : String
  deriving Repr, DecidableEq

/-- The `content` payload of the editor's `ContentBlock`
(advanced-rich-text-editor.tsx lines 842–865); every field is optional. -/
structure BlockContent where
  title : Option String := none
  text : Option String := none
  imageUrl : Option String := none
  videoUrl : Option String := none
  caption : Option String := none
  width : Option Int := none
  alignment : Option String := none
  hasBorder : Option Bool := none
  hasShadow : Option Bool := none
  fontSize : Option String := none
  fontWeight : Option String := none
  textColor : Option String := none
  tableData : Option TableData := none
  chartData : Option ChartData := none
  deriving Repr, DecidableEq

/-- The editor's `ContentBlock` (advanced-rich-text-editor.tsx lines
839–866): an id, one of the eight layout archetypes (kept as a string), and
the content payload. -/
structure ContentBlock where
  id : String
  type : String
  content : BlockContent
  deriving Repr, DecidableEq

/-- JavaScript `items.splice(i, 1)` on an array: remove the element at
index `i` (no element is removed when `i` is out of range). -/
def removeAt (l : List ContentBlock) (i : Nat) : List ContentBlock :=
  l.take i ++ l.drop (i + 1)

/-- JavaScript `items.splice(i, 0, a)` on an array: insert `a` at index `i`,
clamping an out-of-range index to the end. -/
def insertAt (l : List ContentBlock) (i : Nat) (a : ContentBlock) : List ContentBlock :=
  l.take i ++ a :: l.drop i

/-- `handleDragEnd` (advanced-rich-text-editor.tsx lines 1027–1038): a drop
with no destination is ignored; otherwise the element at the source index is
spliced out and re-inserted at the destination index.  The drag-and-drop
library always reports a source index inside the list, so the out-of-range
guard arm is never reached in the program. -/
def handleDragEnd (blocks : List ContentBlock) (source : Nat) (destination : Option Nat) :
    List ContentBlock :=
  match destination with
  | none => blocks
  | some dest =>
      match blocks[source]? with
      | none => blocks
      | some b => insertAt (removeAt blocks source) dest b

/-- The `reorder(fromIndex, toIndex)` operation of the specification:
`handleDragEnd` with a present destination. -/
def reorder (blocks : List ContentBlock) (fromIndex toIndex : Nat) : List ContentBlock :=
  handleDragEnd blocks fromIndex (some toIndex)

/-- `deleteBlock` (advanced-rich-text-editor.tsx lines 1054–1059):
`blocks.filter(block => block.id !== blockId)`. -/
def deleteBlock (blocks : List ContentBlock) (blockId : String) : List ContentBlock :=
  blocks.filter (fun b => b.id != blockId)

/-- Number of image blocks in a block sequence (the images that
`convertBlocksToRichText` will render before a given position). -/
def countImages (bs : List DocumentBlock) : Nat :=
  (bs.filter (fun b => b.type == BlockType.image)).length

/-- `toggleAlign` iterated `n` times, used to describe the `imageAlign`
state of `renderBlocks` after a prefix containing `n` image blocks. -/
def iterToggle (a : String) : Nat → String
  | 0 => a
  | n + 1 => iterToggle (toggleAlign a) n

/-- Sample visible section on `/products` (concrete witness data). -/
def sampleSectionA : ContentSection :=
  ⟨"ida", "hero-1", "Hero", "body", "", "", "hero", "/products", 2, true⟩

/-- Sample visible section on the home page (concrete witness data). -/
def sampleSectionB : ContentSection :=
  ⟨"idb", "hero-2", "Hero2", "body", "", "", "hero", "/", 1, true⟩

/-- Sample hidden section on `/products` (concrete witness data). -/
def sampleSectionC : ContentSection :=
  ⟨"idc", "stat-1", "Stats", "body", "", "", "stats", "/products", 1, false⟩

/-- Sample editor blocks with distinct ids (concrete witness data). -/
def sampleBlockA : ContentBlock := ⟨"block-1", "full-width-text", {}⟩

/-- Second sample editor block (concrete witness data). -/
def sampleBlockB : ContentBlock := ⟨"block-2", "full-width-image", {}⟩

/-- Third sample editor block (concrete witness data). -/
def sampleBlockC : ContentBlock := ⟨"block-3", "image-caption", {}⟩

/-- C10: every buffer parsed through the plain-text path yields a
`ParsedDocument` whose `images` sequence is empty — `parseTextContent`
returns the literal `images: []` and never collects image sources. -/
theorem c10_plain_text_never_produces_images (text : String) :
    (parseTextContent text).images = [] := rfl

/-- C7: when the query behind a `fetchSections` run fails, the resolver
records the failure message as its error string and leaves the previously
loaded sections untouched. -/
theorem c7_fetch_error_keeps_sections (st : SectionsState) (msg : String) :
    (fetchSectionsUpdate st (Except.error msg)).error = some msg ∧
    (fetchSectionsUpdate st (Except.error msg)).sections = st.sections :=
  ⟨rfl, rfl⟩

/-- C5: for either source kind, a failure of the fallible conversion /
decoding step surfaces as the single error message naming that kind, and a
successful parse returns exactly the complete result of the pipeline — no
partial `ParsedDocument` is ever produced. -/
theorem c5_parse_all_or_nothing (w : Except String ParsedDocument) (x : Except String String) :
    (∀ e, w = Except.error e →
      parseWordDocument w = Except.error ("Failed to parse Word document")) ∧
    (∀ d, parseWordDocument w = Except.ok d → w = Except.ok d) ∧
    (∀ e, x = Except.error e →
      parsePdfDocument x = Except.error ("Failed to parse PDF document")) ∧
    (∀ t, x = Except.ok t →
      parsePdfDocument x = Except.ok (parseTextContent t)) := by
  refine ⟨fun e he => ?_, fun d hd => ?_, fun e he => ?_, fun t ht => ?_⟩
  · subst he; rfl
  · cases w with
    | ok a => simpa [parseWordDocument] using hd
    | error e => simp [parseWordDocument] at hd
  · subst he; rfl
  · subst ht; rfl

/-- Concrete witness for `c5_parse_all_or_nothing`. -/
theorem c5_parse_all_or_nothing_witness :
    parseWordDocument (Except.error ("boom")) = Except.error ("Failed to parse Word document") ∧
    parsePdfDocument (Except.error ("boom")) = Except.error ("Failed to parse PDF document") ∧
    parsePdfDocument (Except.ok ("hi")) = Except.ok (parseTextContent ("hi")) :=
  ⟨(c5_parse_all_or_nothing (Except.error ("boom")) (Except.error ("boom"))).1 ("boom") rfl,
   (c5_parse_all_or_nothing (Except.error ("boom")) (Except.error ("boom"))).2.2.1 ("boom") rfl,
   (c5_parse_all_or_nothing (Except.error ("boom")) (Except.ok ("hi"))).2.2.2 ("hi") rfl⟩

/-- C2: the excerpt is the first paragraph block's text, cut to its first
157 characters plus `"..."` exactly when that text is longer than 160
characters and returned verbatim otherwise; its length never exceeds 160,
it ends in `"..."` in the long case, and it is empty when no paragraph
block exists. -/
theorem c2_excerpt_bound (blocks : List DocumentBlock) :
    (generateExcerpt blocks).length ≤ 160 ∧
    (blocks.filter (fun b => b.type == BlockType.paragraph) = [] →
      generateExcerpt blocks = "") ∧
    (∀ p rest, blocks.filter (fun b => b.type == BlockType.paragraph) = p :: rest →
      (160 < p.content.length →
        generateExcerpt blocks = String.mk (p.content.data.take 157) ++ "..." ∧
        ∃ pre, generateExcerpt blocks = pre ++ "...") ∧
      (p.content.length ≤ 160 → generateExcerpt blocks = p.content)) := by
  refine ⟨?_, fun hf => by simp [generateExcerpt, hf], fun p rest hf => ?_⟩
  · cases hf : blocks.filter (fun b => b.type == BlockType.paragraph) with
    | nil => simp [generateExcerpt, hf]
    | cons p rest =>
        by_cases hlen : 160 < p.content.length
        · have he : generateExcerpt blocks = String.mk (p.content.data.take 157) ++ "..." := by
            simp [generateExcerpt, hf, hlen]
          rw [he, String.length_append]
          have h1 : (String.mk (p.content.data.take 157)).length ≤ 157 :=
            List.length_take_le 157 p.content.data
          have h3 : ("..." : String).length = 3 := rfl
          omega
        · have he : generateExcerpt blocks = p.content := by
            simp [generateExcerpt, hf, hlen]
          rw [he]
          omega
  · constructor
    · intro hlen
      have he : generateExcerpt blocks = String.mk (p.content.data.take 157) ++ "..." := by
        simp [generateExcerpt, hf, hlen]
      exact ⟨he, String.mk (p.content.data.take 157), he⟩
    · intro hlen
      have hlen' : ¬ 160 < p.content.length := by omega
      simp [generateExcerpt, hf, hlen']

/-- Concrete witness for `c2_excerpt_bound`: the no-paragraph case, a short
first paragraph, and a 161-character first paragraph. -/
theorem c2_excerpt_bound_witness :
    generateExcerpt [] = "" ∧
    generateExcerpt [⟨BlockType.paragraph, none, "hi", none⟩] = "hi" ∧
    generateExcerpt [⟨BlockType.paragraph, none, String.mk (List.replicate 161 'a'), none⟩] =
      String.mk ((String.mk (List.replicate 161 'a')).data.take 157) ++ "..." :=
  ⟨(c2_excerpt_bound []).2.1 rfl,
   ((c2_excerpt_bound [⟨BlockType.paragraph, none, "hi", none⟩]).2.2
      ⟨BlockType.paragraph, none, "hi", none⟩ [] (by decide)).2 (by decide),
   (((c2_excerpt_bound [⟨BlockType.paragraph, none, String.mk (List.replicate 161 'a'), none⟩]).2.2
      ⟨BlockType.paragraph, none, String.mk (List.replicate 161 'a'), none⟩ [] (by decide)).1
      (by decide)).1⟩

/-- C6: `fetchSections` returns only sections with `visible = true`, only
sections whose `page_path` equals a non-empty `pagePath` argument, and its
result is sorted ascending by `display_order`. -/
theorem c6_fetchSections_visible_filtered_sorted (rows : List ContentSection) (pagePath : String) :
    (∀ s ∈ fetchSections rows pagePath,
      s.visible = true ∧ (pagePath ≠ "" → s.page_path = pagePath)) ∧
    List.Sorted (fun a b => a.display_order ≤ b.display_order) (fetchSections rows pagePath) := by
  haveI : IsTotal ContentSection (fun a b => a.display_order ≤ b.display_order) :=
    ⟨fun a b => Int.le_total a.display_order b.display_order⟩
  haveI : IsTrans ContentSection (fun a b => a.display_order ≤ b.display_order) :=
    ⟨fun _ _ _ hab hbc => le_trans hab hbc⟩
  constructor
  · intro s hs
    simp only [fetchSections] at hs
    rw [(List.perm_insertionSort _ _).mem_iff] at hs
    by_cases hp : pagePath = ""
    · rw [if_neg (by simpa using hp)] at hs
      exact ⟨(List.mem_filter.mp hs).2, fun h => absurd hp h⟩
    · rw [if_pos hp] at hs
      rw [List.mem_filter, List.mem_filter] at hs
      exact ⟨hs.1.2, fun _ => by simpa using hs.2⟩
  · simp only [fetchSections]
    exact List.sorted_insertionSort _ _

/-- Concrete witness for `c6_fetchSections_visible_filtered_sorted`. -/
theorem c6_fetchSections_witness :
    sampleSectionA.visible = true ∧
    ("/products" ≠ "" → sampleSectionA.page_path = "/products") :=
  (c6_fetchSections_visible_filtered_sorted [sampleSectionB, sampleSectionA, sampleSectionC]
    ("/products")).1 sampleSectionA (by decide)

/-- Helper: with pairwise-distinct ids and some block carrying the deleted
id, filtering that id away shortens the sequence by exactly one. -/
theorem deleteBlock_length_helper (l : List ContentBlock) (i : String)
    (hnd : (l.map (fun b => b.id)).Nodup) (hex : ∃ b ∈ l, b.id = i) :
    (l.filter (fun b => b.id != i)).length + 1 = l.length := by
  induction l with
  | nil => rcases hex with ⟨b, hb, _⟩; cases hb
  | cons c cs ih =>
      simp only [List.map_cons, List.nodup_cons] at hnd
      by_cases hc : c.id = i
      · have hrest : ∀ b ∈ cs, b.id ≠ i := by
          intro b hb hbid
          exact hnd.1 (List.mem_map.mpr ⟨b, hb, by rw [hbid, hc]⟩)
        have heq : cs.filter (fun b => b.id != i) = cs :=
          List.filter_eq_self.mpr (fun b hb => by simpa using hrest b hb)
        simp [List.filter_cons, hc, heq]
      · rcases hex with ⟨b, hb, hbid⟩
        rcases List.mem_cons.mp hb with hbc | hbcs
        · exact absurd (hbc ▸ hbid) hc
        · have := ih hnd.2 ⟨b, hbcs, hbid⟩
          simp only [List.filter_cons, List.length_cons]
          rw [if_pos (by simpa using hc)]
          simp only [List.length_cons]
          omega

/-- C9: after `deleteBlock(id)` on a sequence with pairwise-distinct ids, no
block with that id remains; if such a block was present the length drops by
exactly one and the remaining blocks keep their relative order; if absent
the sequence is unchanged. -/
theorem c9_deleteBlock_removes_id (blocks : List ContentBlock) (blockId : String)
    (hnd : (blocks.map (fun b => b.id)).Nodup) :
    (∀ b ∈ deleteBlock blocks blockId, b.id ≠ blockId) ∧
    ((∃ b ∈ blocks, b.id = blockId) →
      (deleteBlock blocks blockId).length + 1 = blocks.length) ∧
    ((∀ b ∈ blocks, b.id ≠ blockId) → deleteBlock blocks blockId = blocks) ∧
    (deleteBlock blocks blockId).Sublist blocks := by
  refine ⟨?_, ?_, ?_, List.filter_sublist blocks⟩
  · intro b hb
    have := (List.mem_filter.mp hb).2
    simpa using this
  · exact fun hex => deleteBlock_length_helper blocks blockId hnd hex
  · intro h
    exact List.filter_eq_self.mpr (fun b hb => by simpa using h b hb)

/-- Concrete witness for `c9_deleteBlock_removes_id`: deleting a present id
drops the length by one; deleting an absent id is a no-op. -/
theorem c9_deleteBlock_witness :
    (deleteBlock [sampleBlockA, sampleBlockB] ("block-1")).length + 1 =
      ([sampleBlockA, sampleBlockB] : List ContentBlock).length ∧
    deleteBlock [sampleBlockA, sampleBlockB] ("zzz") = [sampleBlockA, sampleBlockB] :=
  ⟨(c9_deleteBlock_removes_id [sampleBlockA, sampleBlockB] ("block-1") (by decide)).2.1
      ⟨sampleBlockA, by decide, by decide⟩,
   (c9_deleteBlock_removes_id [sampleBlockA, sampleBlockB] ("zzz") (by decide)).2.2.1
      (by decide)⟩

/-- Helper: removing an in-range index shortens the list by one. -/
theorem length_removeAt (l : List ContentBlock) (i : Nat) (h : i < l.length) :
    (removeAt l i).length = l.length - 1 := by
  simp only [removeAt, List.length_append, List.length_take, List.length_drop]
  omega

/-- Helper: the element just inserted at an in-range index is found there. -/
theorem getElem?_insertAt_self (l : List ContentBlock) (i : Nat) (a : ContentBlock)
    (h : i ≤ l.length) : (insertAt l i a)[i]? = some a := by
  induction l generalizing i with
  | nil =>
      have h0 : i = 0 := by simpa using h
      subst h0
      rfl
  | cons c cs ih =>
      cases i with
      | zero => rfl
      | succ j =>
          have : insertAt (c :: cs) (j + 1) a = c :: insertAt cs j a := by
            simp [insertAt]
          rw [this]
          simpa using ih j (by simpa using h)

/-- Helper: removing the element just inserted restores the list. -/
theorem removeAt_insertAt (l : List ContentBlock) (i : Nat) (a : ContentBlock)
    (h : i ≤ l.length) : removeAt (insertAt l i a) i = l := by
  induction l generalizing i with
  | nil =>
      have h0 : i = 0 := by simpa using h
      subst h0
      rfl
  | cons c cs ih =>
      cases i with
      | zero => rfl
      | succ j =>
          have h1 : insertAt (c :: cs) (j + 1) a = c :: insertAt cs j a := by
            simp [insertAt]
          have h2 : removeAt (c :: insertAt cs j a) (j + 1) = c :: removeAt (insertAt cs j a) j := by
            simp [removeAt]
          rw [h1, h2, ih j (by simpa using h)]

/-- Helper: re-inserting the removed element at its old index restores the
list. -/
theorem insertAt_removeAt_self (l : List ContentBlock) (i : Nat) (h : i < l.length) :
    insertAt (removeAt l i) i l[i] = l := by
  induction l generalizing i with
  | nil => cases h
  | cons c cs ih =>
      cases i with
      | zero => rfl
      | succ j =>
          have hj : j < cs.length := by simpa using h
          have h1 : removeAt (c :: cs) (j + 1) = c :: removeAt cs j := by
            simp [removeAt]
          have hg : (c :: cs)[j + 1] = cs[j] := rfl
          rw [h1, hg]
          have h2 : insertAt (c :: removeAt cs j) (j + 1) cs[j] =
              c :: insertAt (removeAt cs j) j cs[j] := by
            simp [insertAt]
          rw [h2, ih j hj]

/-- C8: for valid indices, `reorder(fromIndex, toIndex)` followed by
`reorder(toIndex, fromIndex)` restores the original block sequence exactly
(same blocks, same ids, same order). -/
theorem c8_reorder_inverse (blocks : List ContentBlock) (f t : Nat)
    (hf : f < blocks.length) (ht : t < blocks.length) :
    reorder (reorder blocks f t) t f = blocks := by
  have hb : blocks[f]? = some blocks[f] := List.getElem?_eq_getElem hf
  have hlen : (removeAt blocks f).length = blocks.length - 1 := length_removeAt blocks f hf
  have ht' : t ≤ (removeAt blocks f).length := by omega
  have h1 : reorder blocks f t = insertAt (removeAt blocks f) t blocks[f] := by
    simp [reorder, handleDragEnd, hb]
  rw [h1]
  have h2 : (insertAt (removeAt blocks f) t blocks[f])[t]? = some blocks[f] :=
    getElem?_insertAt_self _ _ _ ht'
  simp only [reorder, handleDragEnd, h2]
  rw [removeAt_insertAt _ _ _ ht']
  exact insertAt_removeAt_self blocks f hf

/-- Concrete witness for `c8_reorder_inverse`: moving the first of three
blocks to the end and back. -/
theorem c8_reorder_inverse_witness :
    reorder (reorder [sampleBlockA, sampleBlockB, sampleBlockC] 0 2) 2 0 =
      [sampleBlockA, sampleBlockB, sampleBlockC] :=
  c8_reorder_inverse [sampleBlockA, sampleBlockB, sampleBlockC] 0 2 (by decide) (by decide)

/-- Helper: `iterToggle` steps once on the outside as well. -/
theorem iterToggle_succ (a : String) (n : Nat) :
    iterToggle a (n + 1) = toggleAlign (iterToggle a n) := by
  induction n generalizing a with
  | zero => rfl
  | succ m ih =>
      show iterToggle (toggleAlign a) (m + 1) = _
      rw [ih (toggleAlign a)]
      rfl

/-- Helper: rendering a concatenation splits at the boundary, with the
alignment state toggled once per image block of the first part. -/
theorem renderBlocks_append (xs ys : List DocumentBlock) (a : String) :
    renderBlocks (xs ++ ys) a =
      renderBlocks xs a ++ renderBlocks ys (iterToggle a (countImages xs)) := by
  induction xs generalizing a with
  | nil => simp [renderBlocks, countImages, iterToggle]
  | cons b bs ih =>
      obtain ⟨bt, lvl, cont, its⟩ := b
      cases bt with
      | image =>
          simp only [List.cons_append, renderBlocks, List.append_eq]
          rw [ih (toggleAlign a), String.append_assoc]
          have hc : countImages (⟨BlockType.image, lvl, cont, its⟩ :: bs) = countImages bs + 1 := by
            simp [countImages]
          rw [hc]
          rfl
      | heading =>
          simp only [List.cons_append, renderBlocks, List.append_eq]
          rw [ih a, String.append_assoc]
          have hc : countImages (⟨BlockType.heading, lvl, cont, its⟩ :: bs) = countImages bs := by
            simp [countImages]
          rw [hc]
      | paragraph =>
          simp only [List.cons_append, renderBlocks, List.append_eq]
          rw [ih a, String.append_assoc]
          have hc : countImages (⟨BlockType.paragraph, lvl, cont, its⟩ :: bs) = countImages bs := by
            simp [countImages]
          rw [hc]
      | list =>
          simp only [List.cons_append, renderBlocks, List.append_eq]
          rw [ih a, String.append_assoc]
          have hc : countImages (⟨BlockType.list, lvl, cont, its⟩ :: bs) = countImages bs := by
            simp [countImages]
          rw [hc]
      | table =>
          simp only [List.cons_append, renderBlocks, List.append_eq]
          rw [ih a, String.append_assoc]
          have hc : countImages (⟨BlockType.table, lvl, cont, its⟩ :: bs) = countImages bs := by
            simp [countImages]
          rw [hc]

/-- Helper: starting from `'left'`, the alignment state after `n` images is
`'left'` for even `n` and `'right'` for odd `n`. -/
theorem iterToggle_left (n : Nat) :
    iterToggle ("left") n = if n % 2 = 0 then "left" else "right" := by
  induction n with
  | zero => rfl
  | succ m ih =>
      rw [iterToggle_succ, ih]
      by_cases hm : m % 2 = 0
      · have h1 : (m + 1) % 2 = 1 := by omega
        simp [hm, h1, toggleAlign]
      · have h0 : m % 2 = 1 := by omega
        have h1 : (m + 1) % 2 = 0 := by omega
        simp [hm, h1, toggleAlign]

/-- C4: in the rendered markup, the image blocks receive alternating
alignments starting with `left`: an image block preceded by an even number
of image blocks is rendered `left`, by an odd number `right`, regardless of
any non-image blocks around them. -/
theorem c4_image_alignment_alternates (pre post : List DocumentBlock)
    (lvl : Option Nat) (src : String) (its : Option (List String)) :
    convertBlocksToRichText (pre ++ ⟨BlockType.image, lvl, src, its⟩ :: post) =
      renderBlocks pre ("left") ++
        (imageHtml (if countImages pre % 2 = 0 then "left" else "right") src ++
          renderBlocks post (if (countImages pre + 1) % 2 = 0 then "left" else "right")) := by
  unfold convertBlocksToRichText
  rw [renderBlocks_append]
  congr 1
  simp only [renderBlocks]
  have hB : toggleAlign (iterToggle ("left") (countImages pre)) =
      if (countImages pre + 1) % 2 = 0 then "left" else "right" := by
    rw [← iterToggle_succ, iterToggle_left]
  rw [hB, iterToggle_left]

/-- C1 counterexample: `"- short bullet"` starts with a hyphen, yet the
parser classifies it as a level-2 heading (the heading test fires first),
and no list block at all is emitted for the two-line input. -/
theorem c1_counterexample_short_bullet :
    isBulletLine ("- short bullet") = true ∧
    parseTextBlocks ("My Title\n- short bullet") =
      [⟨BlockType.heading, some 1, "My Title", none⟩,
       ⟨BlockType.heading, some 2, "- short bullet", none⟩] ∧
    ∀ b ∈ parseTextBlocks ("My Title\n- short bullet"), b.type ≠ BlockType.list := by
  decide

/-- C1 amended: a line after the first non-blank line that starts with a
bullet glyph, hyphen, or numeric-dot prefix becomes its own one-item `list`
block — PROVIDED the heading test does not claim it first, i.e. the trimmed
line is at least 100 characters long or ends with a period; the single item
is the trimmed line with one leading marker character (bullet, hyphen,
digit, plus, or dot) and the following whitespace removed. -/
theorem c1_amended_bullet_line (text : String) (i : Nat) (l : String)
    (hl : (nonBlankLines text)[i + 1]? = some l)
    (hq : isBulletLine (jsTrim l) = true)
    (hh : (decide ((jsTrim l).length < 100) && !(jsEndsWith (jsTrim l) ("."))) = false) :
    (parseTextBlocks text)[i + 1]? =
      some ⟨BlockType.list, none, "ul", some [stripListMarker (jsTrim l)]⟩ := by
  cases hnl : nonBlankLines text with
  | nil => rw [hnl] at hl; simp at hl
  | cons first rest =>
      rw [hnl] at hl
      have hl' : rest[i]? = some l := by simpa using hl
      simp only [parseTextBlocks, hnl]
      rw [List.getElem?_cons_succ, List.getElem?_map, hl']
      simp [classifyLine, hq, hh]
      intro hlt
      simpa [hlt] using hh

/-- Concrete witness for `c1_amended_bullet_line`: in
`"My Title\n- item one."` the second line ends with a period, so it becomes
the one-item list `["item one."]`. -/
theorem c1_amended_bullet_line_witness :
    (parseTextBlocks ("My Title\n- item one."))[1]? =
      some ⟨BlockType.list, none, "ul", some ["item one."]⟩ :=
  (c1_amended_bullet_line ("My Title\n- item one.") 0 ("- item one.")
      (by decide) (by decide) (by decide)).trans (by decide)

/-- C3: the end-to-end plain-text example — three lines give a level-1
heading, a level-2 heading, and a paragraph, with the title taken from the
first line and the excerpt equal to the paragraph verbatim. -/
theorem c3_end_to_end_example :
    parseTextBlocks ("My Title\nShort Line\nThis is a longer paragraph that ends with a period.") =
      [⟨BlockType.heading, some 1, "My Title", none⟩,
       ⟨BlockType.heading, some 2, "Short Line", none⟩,
       ⟨BlockType.paragraph, none,
         "This is a longer paragraph that ends with a period.", none⟩] ∧
    (parseTextContent
        ("My Title\nShort Line\nThis is a longer paragraph that ends with a period.")).title =
      "My Title" ∧
    (parseTextContent
        ("My Title\nShort Line\nThis is a longer paragraph that ends with a period.")).excerpt =
      "This is a longer paragraph that ends with a period." := by
  refine ⟨by decide, by decide, by decide⟩
